import Mathlib

/-
Verification of the core calculation logic of the FIRE Tax + FI Planner
(streamlit_app.py): the progressive tax-bracket evaluator, the return
normalizer, the AGI/taxable-income computation, the year-by-year portfolio
projection loop, and the FI milestone-target machinery.

Float arithmetic in the source is modelled exactly over an arbitrary linear
ordered field (instantiated at ℚ for executable checks and at ℝ for
continuity statements).  Python dicts keyed by account-name strings are
modelled as association lists with first-match lookup; a Python dict
assignment used as an override is modelled by prepending the new binding.
-/

namespace Fire

/-- Embedding of `calculate_tax` (streamlit_app.py lines 56-65).
The Python loop computes, for the bracket `(start, rate)` at index `i`, the
upper end `end = brackets[i+1][0]` (or +infinity for the last bracket),
breaks as soon as `taxable_income <= start`, and otherwise accumulates
`span * rate` whenever `span = min(taxable_income, end) - start > 0`.
This recursion mirrors that loop: two list patterns distinguish the last
bracket (`end = +inf`, so `min(ti, end) = ti`) from an inner bracket. -/
def calc_aux {α : Type} [LinearOrderedField α] (ti : α) : List (α × α) → α
  | [] => 0
  | [(s, r)] =>
      if ti ≤ s then 0
      else if 0 < ti - s then (ti - s) * r else 0
  | (s, r) :: (s2, r2) :: rest =>
      if ti ≤ s then 0
      else (if 0 < min ti s2 - s then (min ti s2 - s) * r else 0) +
        calc_aux ti ((s2, r2) :: rest)

/-- `calculate_tax(taxable_income, brackets)`: returns `0.0` when
`taxable_income <= 0`, otherwise the accumulated bracket tax clamped below
at `0.0` by the final `max(tax, 0.0)`. -/
def calculate_tax {α : Type} [LinearOrderedField α] (taxable_income : α)
    (brackets : List (α × α)) : α :=
  if taxable_income ≤ 0 then 0 else max (calc_aux taxable_income brackets) 0

/-- Embedding of `normalize_return` (lines 70-75).  A `None`/non-convertible
input is modelled as `Option.none` and yields `0.0`; a numeric input `r` is
divided by 100 when `r > 1.5` and then clamped to `[-0.90, 2.00]` by
`max(-0.90, min(2.00, r))`. -/
def normalize_return (r : Option ℚ) : ℚ :=
  match r with
  | none => 0
  | some v =>
      let v1 := if 3/2 < v then v / 100 else v
      max (-(9/10)) (min 2 v1)

/-- An account entry of the simulation `portfolio` dict (lines 360-371):
a name, a current `balance`, a normalized annual `return` (field `ret`,
since `return` is reserved in Lean), and its entry in `annual_contribs`. -/
structure Acct where
  name : String
  balance : ℚ
  ret : ℚ
  contrib : ℚ
deriving DecidableEq

/-- One simulated year of the grow-and-contribute loop (lines 413-415):
every account is updated exactly once by
`balance = balance * (1 + r) + annual_contribs.get(acct, 0.0)`. -/
def stepYear (p : List Acct) : List Acct :=
  p.map fun a => { a with balance := a.balance * (1 + a.ret) + a.contrib }

/-- Total portfolio balance `sum(b["balance"] for b in portfolio.values())`. -/
def totalBalance (p : List Acct) : ℚ :=
  (p.map fun a => a.balance).sum

/-- Portfolio state after `n` simulated years (the source mutates the
portfolio in place once per loop iteration; here the state is threaded). -/
def simulate (p : List Acct) : ℕ → List Acct
  | 0 => p
  | n + 1 => stepYear (simulate p n)

/-- Per-account balance snapshot `{acct: portfolio[acct]["balance"] ...}`. -/
def balanceList (p : List Acct) : List (String × ℚ) :=
  p.map fun a => (a.name, a.balance)

/-- C3: normalize_return returns 0 for a missing/non-numeric input; a numeric
value is divided by 100 exactly when it is strictly greater than 1.5 (1.5
itself is not reinterpreted) and then clamped to [-0.90, 2.00]; in
particular 30 ↦ 0.30, 0.30 ↦ 0.30, none ↦ 0, 500 ↦ 2.00, -200 ↦ -0.90. -/
theorem normalize_return_spec :
    normalize_return none = 0 ∧
    (∀ v : ℚ, 3/2 < v →
      normalize_return (some v) = max (-(9/10)) (min 2 (v / 100))) ∧
    (∀ v : ℚ, v ≤ 3/2 →
      normalize_return (some v) = max (-(9/10)) (min 2 v)) ∧
    normalize_return (some 30) = 3/10 ∧
    normalize_return (some (3/10)) = 3/10 ∧
    normalize_return (some (3/2)) = 3/2 ∧
    normalize_return (some 500) = 2 ∧
    normalize_return (some (-200)) = -(9/10) := by
  refine ⟨rfl, ?_, ?_,
    by norm_num [normalize_return, min_def, max_def],
    by norm_num [normalize_return, min_def, max_def],
    by norm_num [normalize_return, min_def, max_def],
    by norm_num [normalize_return, min_def, max_def],
    by norm_num [normalize_return, min_def, max_def]⟩
  · intro v hv
    simp only [normalize_return, if_pos hv]
  · intro v hv
    simp only [normalize_return, if_neg (not_lt.mpr hv)]

/-- Witness for `normalize_return_spec`: the division-by-100 branch applied
at the concrete numeric input 30. -/
theorem normalize_return_spec_witness :
    normalize_return (some 30) = max (-(9/10)) (min 2 ((30 : ℚ) / 100)) :=
  normalize_return_spec.2.1 30 (by norm_num)

/-- C5: each simulated year maps every account once to
`balance * (1 + return) + contribution` (growth first, contribution added
after, so the year's contribution does not compound in its first year);
a single account starting at 0 with contribution 10000 and return 0 holds
exactly 10000 after one simulated year. -/
theorem stepYear_spec :
    (∀ p : List Acct, (stepYear p).map (fun a => a.balance) =
      p.map (fun a => a.balance * (1 + a.ret) + a.contrib)) ∧
    (∀ p : List Acct, (stepYear p).length = p.length) ∧
    balanceList (simulate [⟨"X", 0, 0, 10000⟩] 1) = [("X", 10000)] := by
  refine ⟨?_, ?_, by norm_num [balanceList, simulate, stepYear]⟩
  · intro p
    simp [stepYear, List.map_map]
  · intro p
    simp [stepYear]

lemma totalBalance_stepYear_ge (p : List Acct)
    (h : ∀ a ∈ p, 0 ≤ a.balance ∧ 0 ≤ a.ret ∧ 0 ≤ a.contrib) :
    totalBalance p ≤ totalBalance (stepYear p) := by
  unfold totalBalance stepYear
  rw [List.map_map]
  refine List.sum_le_sum ?_
  intro a ha
  obtain ⟨hb, hr, hc⟩ := h a ha
  simp only [Function.comp]
  nlinarith [mul_nonneg hb hr]

lemma stepYear_preserves (p : List Acct)
    (h : ∀ a ∈ p, 0 ≤ a.balance ∧ 0 ≤ a.ret ∧ 0 ≤ a.contrib) :
    ∀ a ∈ stepYear p, 0 ≤ a.balance ∧ 0 ≤ a.ret ∧ 0 ≤ a.contrib := by
  intro a ha
  simp only [stepYear, List.mem_map] at ha
  obtain ⟨b, hb, rfl⟩ := ha
  obtain ⟨h1, h2, h3⟩ := h b hb
  have hbr : (0 : ℚ) ≤ b.balance * (1 + b.ret) := mul_nonneg h1 (by linarith)
  exact ⟨by simpa using by linarith, h2, h3⟩

lemma simulate_preserves (p : List Acct)
    (h : ∀ a ∈ p, 0 ≤ a.balance ∧ 0 ≤ a.ret ∧ 0 ≤ a.contrib) :
    ∀ n : ℕ, ∀ a ∈ simulate p n, 0 ≤ a.balance ∧ 0 ≤ a.ret ∧ 0 ≤ a.contrib := by
  intro n
  induction n with
  | zero => exact h
  | succ n ih => exact stepYear_preserves _ ih

/-- C1 counterexample: the claim's precondition allows any return ≥ -1, but
a single account with balance 100, return -1/2 ≥ -1, contribution 0 ≥ 0
shrinks the total from 100 to 50 after one simulated year. -/
theorem totalBalance_shrinks_counterexample :
    ((-1 : ℚ) ≤ -(1/2)) ∧ ((0 : ℚ) ≤ 0) ∧
    totalBalance (simulate [⟨"A", 100, -(1/2), 0⟩] 1) <
      totalBalance (simulate [⟨"A", 100, -(1/2), 0⟩] 0) := by
  norm_num [totalBalance, simulate, stepYear]

/-- C1 (amended): for a portfolio in which every account has non-negative
balance, non-negative annual return and non-negative annual contribution,
the total balance after each simulated year's grow-and-contribute update is
at least the previous year's total, for every year. -/
theorem totalBalance_monotone (p : List Acct)
    (h : ∀ a ∈ p, 0 ≤ a.balance ∧ 0 ≤ a.ret ∧ 0 ≤ a.contrib) :
    ∀ n : ℕ, totalBalance (simulate p n) ≤ totalBalance (simulate p (n + 1)) :=
  fun n => totalBalance_stepYear_ge _ (simulate_preserves p h n)

/-- Witness for `totalBalance_monotone` at a concrete one-account portfolio. -/
theorem totalBalance_monotone_witness :
    totalBalance (simulate [⟨"A", 100, 1/10, 5⟩] 2) ≤
      totalBalance (simulate [⟨"A", 100, 1/10, 5⟩] 3) :=
  totalBalance_monotone [⟨"A", 100, 1/10, 5⟩]
    (by intro a ha; rw [List.mem_singleton] at ha; subst ha; norm_num) 2

/-- Per-milestone ETA initialization (lines 402-403): `0.0` when the
starting total already meets the target, otherwise `None`. -/
def initEta (p : List Acct) (target : ℚ) : Option ℚ :=
  if totalBalance p ≥ target then some 0 else none

/-- In-loop fractional crossing update (lines 431-436) for one milestone in
year `year`: with `span = max(total_balance - prev_total, 1e-9)`, an unset
ETA becomes `(year - 1) + (target - prev_total) / span` exactly when
`prev_total < target <= total_balance`; a set ETA is left unchanged. -/
def stepEta (year : ℕ) (prev_total total_balance target : ℚ) :
    Option ℚ → Option ℚ
  | some e => some e
  | none =>
      if prev_total < target ∧ target ≤ total_balance then
        some ((year : ℚ) - 1 +
          (target - prev_total) / max (total_balance - prev_total) (1/1000000000))
      else none

/-- A milestone's recorded ETA after `n` iterations of the simulation loop. -/
def etaAfter (p : List Acct) (target : ℚ) : ℕ → Option ℚ
  | 0 => initEta p target
  | n + 1 =>
      stepEta (n + 1) (totalBalance (simulate p n))
        (totalBalance (simulate p (n + 1))) target (etaAfter p target n)

/-- C4: when a not-yet-crossed target satisfies prev_total < T ≤ total and
the year's gain is at least the 1e-9 epsilon guard, the recorded crossing
time is exactly (year-1) + (T - prev_total)/(total - prev_total); the
guarded denominator is always strictly positive (no division by zero even
when total = prev_total); and prev_total=90, total=110, T=100 records
(year-1) + 0.5. -/
theorem stepEta_fractional (year : ℕ) (prev_total total_balance target : ℚ)
    (h1 : prev_total < target) (h2 : target ≤ total_balance)
    (h3 : 1/1000000000 ≤ total_balance - prev_total) :
    stepEta year prev_total total_balance target none =
      some ((year : ℚ) - 1 + (target - prev_total) / (total_balance - prev_total)) ∧
    (0 : ℚ) < max (total_balance - prev_total) (1/1000000000) ∧
    stepEta year 90 110 100 none = some ((year : ℚ) - 1 + 1/2) := by
  refine ⟨?_, lt_max_of_lt_right (by norm_num), ?_⟩
  · simp only [stepEta, if_pos (And.intro h1 h2)]
    rw [max_eq_left h3]
  · simp only [stepEta]
    rw [if_pos (by norm_num : (90 : ℚ) < 100 ∧ (100 : ℚ) ≤ 110)]
    rw [max_eq_left (by norm_num)]
    norm_num

/-- Witness for `stepEta_fractional` at year 3, prev 90, total 110, T 100. -/
theorem stepEta_fractional_witness :
    stepEta 3 90 110 100 none =
      some ((3 : ℚ) - 1 + (100 - 90) / (110 - 90)) ∧
    (0 : ℚ) < max ((110 : ℚ) - 90) (1/1000000000) ∧
    stepEta 3 90 110 100 none = some ((3 : ℚ) - 1 + 1/2) :=
  stepEta_fractional 3 90 110 100 (by norm_num) (by norm_num) (by norm_num)

/-- C8: a milestone target already met by the starting total is recorded as
ETA 0 by the pre-loop initialization, and since the in-loop update only
touches unset ETAs, it keeps ETA 0 after every simulated year. -/
theorem etaAfter_already_met (p : List Acct) (target : ℚ)
    (h : target ≤ totalBalance p) :
    ∀ n : ℕ, etaAfter p target n = some 0 := by
  intro n
  induction n with
  | zero =>
      simp only [etaAfter, initEta, ge_iff_le]
      rw [if_pos h]
  | succ n ih =>
      simp only [etaAfter, ih, stepEta]

/-- Witness for `etaAfter_already_met`: starting total 100 meets target 50,
so the ETA is still 0 after three simulated years. -/
theorem etaAfter_already_met_witness :
    etaAfter [⟨"A", 100, 0, 0⟩] 50 3 = some 0 :=
  etaAfter_already_met [⟨"A", 100, 0, 0⟩] 50 (by norm_num [totalBalance]) 3

/-- In-loop retirement snapshot assignment (lines 438-439): at the year
equal to `years_until_ret`, record the per-account balances. -/
def snapshotLoop (p : List Acct) (years_until_ret : ℕ) :
    ℕ → Option (List (String × ℚ))
  | 0 => none
  | n + 1 =>
      if n + 1 = years_until_ret then some (balanceList (simulate p (n + 1)))
      else snapshotLoop p years_until_ret n

/-- `snapshot_at_ret` with its post-loop fallback (lines 440-441): when the
loop never reached `years_until_ret`, use the final year's balances. -/
def snapshot_at_ret (p : List Acct) (years_until_ret sim_years : ℕ) :
    List (String × ℚ) :=
  match snapshotLoop p years_until_ret sim_years with
  | some s => s
  | none => balanceList (simulate p sim_years)

lemma snapshotLoop_eq_none (p : List Acct) (yur : ℕ) :
    ∀ n : ℕ, n < yur → snapshotLoop p yur n = none := by
  intro n
  induction n with
  | zero => intro _; rfl
  | succ n ih =>
      intro h
      simp only [snapshotLoop]
      rw [if_neg (Nat.ne_of_lt h)]
      exact ih (Nat.lt_of_succ_lt h)

/-- C10: when the configured retirement year exceeds the simulated horizon,
the retirement snapshot is still defined: it falls back to the per-account
balances at the final simulated year. -/
theorem snapshot_at_ret_fallback (p : List Acct) (years_until_ret sim_years : ℕ)
    (h : sim_years < years_until_ret) :
    snapshot_at_ret p years_until_ret sim_years =
      balanceList (simulate p sim_years) := by
  unfold snapshot_at_ret
  rw [snapshotLoop_eq_none p years_until_ret sim_years h]

/-- Witness for `snapshot_at_ret_fallback`: retirement at year 5 with only
2 simulated years falls back to the year-2 balances. -/
theorem snapshot_at_ret_fallback_witness :
    snapshot_at_ret [⟨"A", 7, 0, 3⟩] 5 2 =
      balanceList (simulate [⟨"A", 7, 0, 3⟩] 2) :=
  snapshot_at_ret_fallback [⟨"A", 7, 0, 3⟩] 5 2 (by norm_num)

/-- Portfolio-level default return `default_return_all_else = 0.08` (line 180). -/
def default_return_all_else : ℚ := 8/100

/-- `base_full_fi = annual_expenses / swr` (line 379). -/
def base_full_fi (annual_expenses swr : ℚ) : ℚ := annual_expenses / swr

/-- `base_lean_fi = (annual_expenses * 0.75) / swr` (line 380). -/
def base_lean_fi (annual_expenses swr : ℚ) : ℚ := (annual_expenses * (75/100)) / swr

/-- `base_chubby_fi = (annual_expenses * 1.20) / swr` (line 381). -/
def base_chubby_fi (annual_expenses swr : ℚ) : ℚ := (annual_expenses * (120/100)) / swr

/-- `base_fat_fi = (annual_expenses * 1.50) / swr` (line 382). -/
def base_fat_fi (annual_expenses swr : ℚ) : ℚ := (annual_expenses * (150/100)) / swr

/-- `base_obese_fi = (annual_expenses * 2.00) / swr` (line 383). -/
def base_obese_fi (annual_expenses swr : ℚ) : ℚ := (annual_expenses * 2) / swr

/-- `base_barista_fi = (annual_expenses * 0.50) / swr` (line 384). -/
def base_barista_fi (annual_expenses swr : ℚ) : ℚ := (annual_expenses * (50/100)) / swr

/-- `base_flamingo_fi = 0.50 * base_full_fi` (line 385). -/
def base_flamingo_fi (annual_expenses swr : ℚ) : ℚ :=
  (50/100) * base_full_fi annual_expenses swr

/-- Coast-FI target (line 386): `base_full_fi / (1+default)^yrs` guarded by
`default_return_all_else > -1`; the growth rate is the constant 8%, so the
`math.inf` fallback branch is unreachable (0 stands in for that dead
branch, which ℚ cannot represent). -/
def coast_fi_target (annual_expenses swr : ℚ) (years_until_ret : ℕ) : ℚ :=
  if -1 < default_return_all_else then
    base_full_fi annual_expenses swr / (1 + default_return_all_else) ^ years_until_ret
  else 0

/-- The `milestone_defs` list (lines 388-397), computed once before the
simulation loop; the loop then treats every entry, Coast FI included,
identically. -/
def milestone_defs (annual_expenses swr : ℚ) (years_until_ret : ℕ) :
    List (String × ℚ) :=
  [("Coast FI", coast_fi_target annual_expenses swr years_until_ret),
   ("Flamingo FI (50% of FI #)", base_flamingo_fi annual_expenses swr),
   ("Barista FI (covers ~50% of expenses)", base_barista_fi annual_expenses swr),
   ("Lean FI (75% Expenses)", base_lean_fi annual_expenses swr),
   ("Chubby FI (~120% Expenses)", base_chubby_fi annual_expenses swr),
   ("Full FI (100% Expenses)", base_full_fi annual_expenses swr),
   ("Fat FI (150% Expenses)", base_fat_fi annual_expenses swr),
   ("Obese FI (200% Expenses)", base_obese_fi annual_expenses swr)]

/-- C7: with annual_expenses = 40000 and swr = 0.04 the Full-FI target is
1,000,000, Lean-FI (×0.75) is 750,000 and Fat-FI (×1.50) is 1,500,000;
the Coast-FI target equals full_fi / (1 + 8% growth)^years_until_ret and
sits in the precomputed `milestone_defs` list as an ordinary milestone. -/
theorem fi_targets_spec :
    base_full_fi 40000 (4/100) = 1000000 ∧
    base_lean_fi 40000 (4/100) = 750000 ∧
    base_fat_fi 40000 (4/100) = 1500000 ∧
    (∀ (e s : ℚ) (y : ℕ),
      coast_fi_target e s y =
        base_full_fi e s / (1 + default_return_all_else) ^ y ∧
      ("Coast FI", coast_fi_target e s y) ∈ milestone_defs e s y) := by
  refine ⟨by norm_num [base_full_fi], by norm_num [base_lean_fi],
    by norm_num [base_fat_fi], ?_⟩
  intro e s y
  constructor
  · rw [coast_fi_target, if_pos (by norm_num [default_return_all_else])]
  · simp [milestone_defs]

/-- The SWR guard (lines 377-378): a run with `swr <= 0` signals the error
and stops before any FI target is computed; modelled as `none`. -/
def fiTargets (annual_expenses swr : ℚ) (years_until_ret : ℕ) :
    Option (List (String × ℚ)) :=
  if swr ≤ 0 then none
  else some (milestone_defs annual_expenses swr years_until_ret)

/-- The projection stage reduced to its outputs (lines 399-441): the yearly
total-balance series and the milestone-ETA map, produced only when the SWR
guard passed. -/
def runProjection (annual_expenses swr : ℚ) (years_until_ret : ℕ)
    (p : List Acct) (sim_years : ℕ) :
    Option (List ℚ × List (String × Option ℚ)) :=
  match fiTargets annual_expenses swr years_until_ret with
  | none => none
  | some defs =>
      some ((List.range sim_years).map fun n => totalBalance (simulate p (n + 1)),
        defs.map fun nt => (nt.1, etaAfter p nt.2 sim_years))

/-- C9: for every configuration with swr ≤ 0 the core refuses to compute
milestone targets and halts before the projection, so neither FI targets
nor projection results are produced. -/
theorem swr_guard_spec (annual_expenses swr : ℚ) (years_until_ret : ℕ)
    (p : List Acct) (sim_years : ℕ) (h : swr ≤ 0) :
    fiTargets annual_expenses swr years_until_ret = none ∧
    runProjection annual_expenses swr years_until_ret p sim_years = none := by
  have hf : fiTargets annual_expenses swr years_until_ret = none := by
    simp [fiTargets, h]
  exact ⟨hf, by simp [runProjection, hf]⟩

/-- Witness for `swr_guard_spec` at swr = 0. -/
theorem swr_guard_spec_witness :
    fiTargets 45000 0 18 = none ∧
    runProjection 45000 0 18 [⟨"A", 100, 0, 0⟩] 5 = none :=
  swr_guard_spec 45000 0 18 [⟨"A", 100, 0, 0⟩] 5 (by norm_num)

/-- 2025 federal brackets, single filer (lines 41-44). -/
def FEDERAL_BRACKETS_2025_SINGLE : List (ℚ × ℚ) :=
  [(0, 10/100), (11925, 12/100), (48475, 22/100),
   (103350, 24/100), (197300, 32/100), (250525, 35/100), (626350, 37/100)]

/-- 2025 federal brackets, married filing jointly (lines 45-48). -/
def FEDERAL_BRACKETS_2025_MARRIED : List (ℚ × ℚ) :=
  [(0, 10/100), (23850, 12/100), (96950, 22/100),
   (206700, 24/100), (394600, 32/100), (501050, 35/100), (752600, 37/100)]

/-- 2025 Virginia brackets (line 49). -/
def VIRGINIA_BRACKETS_2025 : List (ℚ × ℚ) :=
  [(0, 2/100), (3000, 3/100), (5000, 5/100), (17000, 575/10000)]

/-- Standard deduction, single (line 50). -/
def STANDARD_DEDUCTION_2025_SINGLE : ℚ := 15000

/-- Standard deduction, married filing jointly (line 51). -/
def STANDARD_DEDUCTION_2025_MARRIED : ℚ := 30000

/-- Python `contributions.get(acct, 0)` on a dict modelled as an
association list with first-match lookup. -/
def getD0 (contributions : List (String × ℚ)) (acct : String) : ℚ :=
  (contributions.lookup acct).getD 0

/-- The `agi_reducing_accounts` list (lines 320-324 / 116-120). -/
def agi_reducing_accounts : List String :=
  ["403(b) Traditional", "457(b) Traditional",
   "401(a) Employee", "Solo 401(k) Employee",
   "SEP IRA", "SIMPLE IRA", "Traditional IRA", "HSA", "FSA"]

/-- AGI as computed in the run block (lines 318-329): start from
`gross - gross*pension_percent`, subtract each AGI-reducing contribution in
a loop, then subtract the 529 contribution capped at 4000. -/
def runAGI (gross_salary pension_percent : ℚ)
    (contributions : List (String × ℚ)) : ℚ :=
  let pension_contribution := gross_salary * pension_percent
  let agi0 := gross_salary - pension_contribution
  let agi1 := agi_reducing_accounts.foldl
    (fun acc a => acc - getD0 contributions a) agi0
  let va_529_deduction := min (getD0 contributions "529 Plan") 4000
  agi1 - va_529_deduction

/-- `taxable_income = max(agi - std_ded, 0)` (line 332 / line 125). -/
def taxable_income_of (agi std_ded : ℚ) : ℚ := max (agi - std_ded) 0

/-- Embedding of `recompute_tax_with_override` (lines 107-128).  The dict
override `contribs[override_key] = override_value` is modelled by
prepending the binding (first-match lookup shadows the old one).  Filing
status is `true` for "Single". -/
def recompute_tax_with_override (base_gross pension_contrib : ℚ)
    (filingSingle : Bool) (contributions : List (String × ℚ))
    (override_key : Option String) (override_value : ℚ) : ℚ × ℚ × ℚ × ℚ :=
  let contribs := match override_key with
    | none => contributions
    | some k => (k, override_value) :: contributions
  let std_ded := if filingSingle then STANDARD_DEDUCTION_2025_SINGLE
    else STANDARD_DEDUCTION_2025_MARRIED
  let fed_br := if filingSingle then FEDERAL_BRACKETS_2025_SINGLE
    else FEDERAL_BRACKETS_2025_MARRIED
  let agi0 := base_gross - pension_contrib
  let agi1 := agi_reducing_accounts.foldl
    (fun acc a => acc - getD0 contribs a) agi0
  let agi2 := agi1 - min (getD0 contribs "529 Plan") 4000
  let taxable := max (agi2 - std_ded) 0
  let fed := calculate_tax taxable fed_br
  let sta := calculate_tax taxable VIRGINIA_BRACKETS_2025
  (taxable, fed, sta, fed + sta)

lemma foldl_sub_eq {β : Type} (f : β → ℚ) (l : List β) :
    ∀ init : ℚ, l.foldl (fun acc a => acc - f a) init = init - (l.map f).sum := by
  induction l with
  | nil => intro init; simp
  | cons b t ih =>
      intro init
      rw [List.foldl_cons, ih, List.map_cons, List.sum_cons]
      ring

/-- C6: AGI equals gross income minus the pension contribution
(gross × pension rate), minus the sum of the AGI-reducing (pre-tax)
contributions, minus the 529 contribution capped at 4000; taxable income is
max(AGI − standard deduction, 0); `recompute_tax_with_override` computes the
same taxable income as the run block; and the end-to-end scenario
(gross 150000, pension 5%, 403(b) 23500, single) gives AGI 119000 and
taxable income 104000. -/
theorem agi_taxable_spec :
    (∀ (g pr : ℚ) (c : List (String × ℚ)),
      runAGI g pr c =
        g - g * pr - (agi_reducing_accounts.map (getD0 c)).sum -
          min (getD0 c "529 Plan") 4000) ∧
    (∀ agi std_ded : ℚ, taxable_income_of agi std_ded = max (agi - std_ded) 0) ∧
    (∀ (g pr : ℚ) (c : List (String × ℚ)),
      (recompute_tax_with_override g (g * pr) true c none 0).1 =
        taxable_income_of (runAGI g pr c) STANDARD_DEDUCTION_2025_SINGLE) ∧
    runAGI 150000 (5/100) [("403(b) Traditional", 23500)] = 119000 ∧
    taxable_income_of (runAGI 150000 (5/100) [("403(b) Traditional", 23500)])
      STANDARD_DEDUCTION_2025_SINGLE = 104000 := by
  have hrun : ∀ (g pr : ℚ) (c : List (String × ℚ)),
      runAGI g pr c =
        g - g * pr - (agi_reducing_accounts.map (getD0 c)).sum -
          min (getD0 c "529 Plan") 4000 := by
    intro g pr c
    simp only [runAGI, foldl_sub_eq]
  have hconc : runAGI 150000 (5/100) [("403(b) Traditional", 23500)] = 119000 := by
    rw [hrun]
    simp [agi_reducing_accounts, getD0, List.lookup]
    norm_num [min_def]
  refine ⟨hrun, fun _ _ => rfl, fun _ _ _ => rfl, hconc, ?_⟩
  rw [hconc]
  norm_num [taxable_income_of, STANDARD_DEDUCTION_2025_SINGLE, max_def]

/-- Closed form of the bracket accumulation: each bracket contributes
`rate * max(min(ti, end) - start, 0)` with `end = ti` for the last bracket.
For sorted tables this equals `calc_aux` (proved below) and makes
monotonicity, continuity and piecewise linearity transparent. -/
def calc_closed {α : Type} [LinearOrderedField α] (ti : α) : List (α × α) → α
  | [] => 0
  | [(s, r)] => r * max (ti - s) 0
  | (s, r) :: (s2, r2) :: rest =>
      r * max (min ti s2 - s) 0 + calc_closed ti ((s2, r2) :: rest)

lemma calc_closed_eq_zero {α : Type} [LinearOrderedField α] {ti : α} :
    ∀ {l : List (α × α)}, (∀ p ∈ l, ti ≤ p.1) → calc_closed ti l = 0 := by
  intro l
  induction l with
  | nil => intro _; rfl
  | cons hd t ih =>
      intro h
      obtain ⟨s, r⟩ := hd
      have hs : ti ≤ s := h (s, r) (List.mem_cons_self _ _)
      cases t with
      | nil =>
          simp only [calc_closed]
          rw [max_eq_right (by linarith)]
          ring
      | cons hd2 t2 =>
          obtain ⟨s2, r2⟩ := hd2
          simp only [calc_closed]
          rw [max_eq_right (by have := min_le_left ti s2; linarith)]
          rw [ih fun p hp => h p (List.mem_cons_of_mem _ hp)]
          ring

lemma calc_aux_eq_closed {α : Type} [LinearOrderedField α] {ti : α} :
    ∀ {l : List (α × α)}, l.Pairwise (fun p q => p.1 < q.1) →
      calc_aux ti l = calc_closed ti l := by
  intro l
  induction l with
  | nil => intro _; rfl
  | cons hd t ih =>
      intro hs
      obtain ⟨s, r⟩ := hd
      rw [List.pairwise_cons] at hs
      obtain ⟨hhd, hst⟩ := hs
      by_cases hts : ti ≤ s
      · have hz : calc_closed ti ((s, r) :: t) = 0 := by
          refine calc_closed_eq_zero ?_
          intro p hp
          rcases List.mem_cons.mp hp with h | h
          · rw [h]; exact hts
          · exact hts.trans (le_of_lt (hhd p h))
        rw [hz]
        cases t with
        | nil => simp only [calc_aux, if_pos hts]
        | cons hd2 t2 =>
            obtain ⟨s2, r2⟩ := hd2
            simp only [calc_aux, if_pos hts]
      · cases t with
        | nil =>
            simp only [calc_aux, calc_closed, if_neg hts]
            by_cases hsp : 0 < ti - s
            · rw [if_pos hsp, max_eq_left (le_of_lt hsp)]; ring
            · rw [if_neg hsp, max_eq_right (not_lt.mp hsp)]; ring
        | cons hd2 t2 =>
            obtain ⟨s2, r2⟩ := hd2
            simp only [calc_aux, calc_closed, if_neg hts]
            rw [ih hst]
            by_cases hsp : 0 < min ti s2 - s
            · rw [if_pos hsp, max_eq_left (le_of_lt hsp)]; ring
            · rw [if_neg hsp, max_eq_right (not_lt.mp hsp)]; ring

lemma calc_closed_nonneg {α : Type} [LinearOrderedField α] {ti : α} :
    ∀ {l : List (α × α)}, (∀ p ∈ l, 0 ≤ p.2) → 0 ≤ calc_closed ti l := by
  intro l
  induction l with
  | nil => intro _; exact le_refl 0
  | cons hd t ih =>
      intro h
      obtain ⟨s, r⟩ := hd
      have hr : 0 ≤ r := h (s, r) (List.mem_cons_self _ _)
      cases t with
      | nil =>
          simp only [calc_closed]
          exact mul_nonneg hr (le_max_right _ _)
      | cons hd2 t2 =>
          obtain ⟨s2, r2⟩ := hd2
          simp only [calc_closed]
          have h2 := ih fun p hp => h p (List.mem_cons_of_mem _ hp)
          have h1 : 0 ≤ r * max (min ti s2 - s) 0 :=
            mul_nonneg hr (le_max_right _ _)
          linarith

lemma thresholds_nonneg {α : Type} [LinearOrderedField α]
    {l : List (α × α)} (hs : l.Pairwise (fun p q => p.1 < q.1))
    (hh : (l.map Prod.fst).head? = some 0) :
    ∀ p ∈ l, (0 : α) ≤ p.1 := by
  cases l with
  | nil => simp at hh
  | cons hd t =>
      rw [List.pairwise_cons] at hs
      have h0 : hd.1 = 0 := by simpa using hh
      intro p hp
      rcases List.mem_cons.mp hp with h | h
      · rw [h, h0]
      · rw [← h0]; exact le_of_lt (hs.1 p h)

lemma tax_eq_closed {α : Type} [LinearOrderedField α]
    {l : List (α × α)} (hs : l.Pairwise (fun p q => p.1 < q.1))
    (hh : (l.map Prod.fst).head? = some 0)
    (hr : ∀ p ∈ l, 0 ≤ p.2) (ti : α) :
    calculate_tax ti l = calc_closed ti l := by
  unfold calculate_tax
  by_cases h0 : ti ≤ 0
  · rw [if_pos h0]
    exact (calc_closed_eq_zero fun p hp =>
      h0.trans (thresholds_nonneg hs hh p hp)).symm
  · rw [if_neg h0, calc_aux_eq_closed hs]
    exact max_eq_left (calc_closed_nonneg hr)

lemma calc_closed_monotone {α : Type} [LinearOrderedField α] :
    ∀ {l : List (α × α)}, (∀ p ∈ l, 0 ≤ p.2) →
      Monotone (fun ti : α => calc_closed ti l) := by
  intro l
  induction l with
  | nil => intro _ x y _; exact le_refl _
  | cons hd t ih =>
      intro h x y hxy
      obtain ⟨s, r⟩ := hd
      have hr : 0 ≤ r := h (s, r) (List.mem_cons_self _ _)
      cases t with
      | nil =>
          simp only [calc_closed]
          exact mul_le_mul_of_nonneg_left
            (max_le_max (by linarith) (le_refl 0)) hr
      | cons hd2 t2 =>
          obtain ⟨s2, r2⟩ := hd2
          simp only [calc_closed]
          have htail := ih (fun p hp => h p (List.mem_cons_of_mem _ hp)) hxy
          have hhead : r * max (min x s2 - s) 0 ≤ r * max (min y s2 - s) 0 :=
            mul_le_mul_of_nonneg_left
              (max_le_max (sub_le_sub_right (min_le_min hxy (le_refl s2)) s)
                (le_refl 0)) hr
          exact add_le_add hhead htail

lemma calc_closed_continuous :
    ∀ l : List (ℝ × ℝ), Continuous (fun ti : ℝ => calc_closed ti l) := by
  intro l
  induction l with
  | nil => exact continuous_const
  | cons hd t ih =>
      obtain ⟨s, r⟩ := hd
      cases t with
      | nil =>
          simp only [calc_closed]
          exact continuous_const.mul
            (((continuous_id.sub continuous_const).max continuous_const))
      | cons hd2 t2 =>
          obtain ⟨s2, r2⟩ := hd2
          simp only [calc_closed]
          exact (continuous_const.mul
            ((((continuous_id.min continuous_const).sub
              continuous_const).max continuous_const))).add ih

lemma calc_closed_segment {α : Type} [LinearOrderedField α] :
    ∀ (l : List (α × α)), l.Pairwise (fun p q => p.1 < q.1) →
      ∀ (i : ℕ) (hi : i < l.length) (x y : α),
        (l.get ⟨i, hi⟩).1 ≤ x → x ≤ y →
        (∀ hi1 : i + 1 < l.length, y ≤ (l.get ⟨i + 1, hi1⟩).1) →
        calc_closed y l - calc_closed x l = (l.get ⟨i, hi⟩).2 * (y - x) := by
  intro l
  induction l with
  | nil => intro _ i hi; exact absurd hi (Nat.not_lt_zero i)
  | cons hd t ih =>
      intro hs i hi x y hx hxy hnext
      obtain ⟨s, r⟩ := hd
      rw [List.pairwise_cons] at hs
      obtain ⟨hhd, hst⟩ := hs
      cases i with
      | zero =>
          have hsx : s ≤ x := hx
          cases t with
          | nil =>
              simp only [calc_closed, List.get]
              rw [max_eq_left (by linarith), max_eq_left (by linarith)]
              ring
          | cons hd2 t2 =>
              obtain ⟨s2, r2⟩ := hd2
              have hy2 : y ≤ s2 := by
                have h1 : 0 + 1 < ((s, r) :: (s2, r2) :: t2).length := by
                  simp
                exact hnext h1
              have hx2 : x ≤ s2 := hxy.trans hy2
              rw [List.pairwise_cons] at hst
              have hz : ∀ v : α, v ≤ s2 →
                  calc_closed v ((s2, r2) :: t2) = 0 := by
                intro v hv
                refine calc_closed_eq_zero ?_
                intro p hp
                rcases List.mem_cons.mp hp with h | h
                · rw [h]; exact hv
                · exact hv.trans (le_of_lt (hst.1 p h))
              simp only [calc_closed, List.get]
              rw [min_eq_left hy2, min_eq_left hx2, hz y hy2, hz x hx2]
              rw [max_eq_left (by linarith), max_eq_left (by linarith)]
              ring
      | succ j =>
          have hj : j < t.length := Nat.succ_lt_succ_iff.mp hi
          cases t with
          | nil => exact absurd hj (Nat.not_lt_zero j)
          | cons hd2 t2 =>
              obtain ⟨s2, r2⟩ := hd2
              have hs2get : s2 ≤ (((s2, r2) :: t2).get ⟨j, hj⟩).1 := by
                rcases Nat.eq_zero_or_pos j with h0 | hpos
                · subst h0; exact le_refl _
                · have := (List.pairwise_iff_get.mp hst)
                    ⟨0, Nat.lt_of_le_of_lt (Nat.zero_le j) hj⟩ ⟨j, hj⟩ hpos
                  exact le_of_lt this
              have hgx : (((s2, r2) :: t2).get ⟨j, hj⟩).1 ≤ x := by
                simpa using hx
              have hs2x : s2 ≤ x := hs2get.trans hgx
              have hs2y : s2 ≤ y := hs2x.trans hxy
              have htail := ih hst j hj x y hgx hxy ?side
              case side =>
                intro hj1
                have h2 : j + 1 + 1 < ((s, r) :: (s2, r2) :: t2).length := by
                  simpa using Nat.succ_lt_succ hj1
                have := hnext h2
                simpa using this
              simp only [calc_closed, List.get] at htail ⊢
              rw [min_eq_right hs2y, min_eq_right hs2x]
              linarith [htail]

/-- C2 counterexample: the claim omits non-negativity of the rates; the
bracket table [(0, 1), (10, -1)] has strictly increasing thresholds with
first threshold 0, yet calculate_tax falls from 10 at income 10 to 0 at
income 20, so it is not monotonically non-decreasing. -/
theorem calculate_tax_not_monotone_counterexample :
    List.Pairwise (fun p q : ℚ × ℚ => p.1 < q.1) [((0 : ℚ), 1), (10, -1)] ∧
    (([((0 : ℚ), 1), (10, -1)].map Prod.fst).head? = some 0) ∧
    ((10 : ℚ) ≤ 20) ∧
    calculate_tax (10 : ℚ) [((0 : ℚ), 1), (10, -1)] = 10 ∧
    calculate_tax (20 : ℚ) [((0 : ℚ), 1), (10, -1)] = 0 := by
  refine ⟨?_, by simp, by norm_num, ?_, ?_⟩
  · norm_num [List.pairwise_cons]
  · norm_num [calculate_tax, calc_aux, min_def, max_def]
  · norm_num [calculate_tax, calc_aux, min_def, max_def]

/-- C2 (amended): for every bracket table with strictly increasing
thresholds, first threshold 0 and non-negative rates, calculate_tax is a
monotonically non-decreasing function of income, is everywhere ≥ 0, is
continuous (so no jump discontinuity at any bracket threshold), and is
piecewise linear: on each bracket segment the tax difference is exactly
the bracket rate times the income difference. -/
theorem calculate_tax_shape (br : List (ℝ × ℝ))
    (hsort : br.Pairwise fun p q => p.1 < q.1)
    (hhead : (br.map Prod.fst).head? = some 0)
    (hrates : ∀ p ∈ br, 0 ≤ p.2) :
    Monotone (fun x : ℝ => calculate_tax x br) ∧
    (∀ x : ℝ, 0 ≤ calculate_tax x br) ∧
    Continuous (fun x : ℝ => calculate_tax x br) ∧
    (∀ (i : ℕ) (hi : i < br.length) (x y : ℝ),
      (br.get ⟨i, hi⟩).1 ≤ x → x ≤ y →
      (∀ hi1 : i + 1 < br.length, y ≤ (br.get ⟨i + 1, hi1⟩).1) →
      calculate_tax y br - calculate_tax x br = (br.get ⟨i, hi⟩).2 * (y - x)) := by
  have hfun : (fun x : ℝ => calculate_tax x br) = fun x : ℝ => calc_closed x br :=
    funext fun x => tax_eq_closed hsort hhead hrates x
  refine ⟨?_, ?_, ?_, ?_⟩
  · rw [hfun]; exact calc_closed_monotone hrates
  · intro x
    unfold calculate_tax
    by_cases h : x ≤ 0
    · rw [if_pos h]
    · rw [if_neg h]; exact le_max_right _ _
  · rw [hfun]; exact calc_closed_continuous br
  · intro i hi x y hx hxy hnext
    rw [tax_eq_closed hsort hhead hrates, tax_eq_closed hsort hhead hrates]
    exact calc_closed_segment br hsort i hi x y hx hxy hnext

/-- Witness for `calculate_tax_shape` at the concrete two-bracket table
(0 → 10%, 50 → 20%). -/
theorem calculate_tax_shape_witness :
    Monotone (fun x : ℝ =>
      calculate_tax x [((0, 1/10) : ℝ × ℝ), ((50, 1/5) : ℝ × ℝ)]) ∧
    (∀ x : ℝ, 0 ≤ calculate_tax x [((0, 1/10) : ℝ × ℝ), ((50, 1/5) : ℝ × ℝ)]) ∧
    Continuous (fun x : ℝ =>
      calculate_tax x [((0, 1/10) : ℝ × ℝ), ((50, 1/5) : ℝ × ℝ)]) ∧
    (∀ (i : ℕ)
      (hi : i < ([((0, 1/10) : ℝ × ℝ), ((50, 1/5) : ℝ × ℝ)]).length) (x y : ℝ),
      (([((0, 1/10) : ℝ × ℝ), ((50, 1/5) : ℝ × ℝ)]).get ⟨i, hi⟩).1 ≤ x →
      x ≤ y →
      (∀ hi1 : i + 1 < ([((0, 1/10) : ℝ × ℝ), ((50, 1/5) : ℝ × ℝ)]).length,
        y ≤ (([((0, 1/10) : ℝ × ℝ), ((50, 1/5) : ℝ × ℝ)]).get ⟨i + 1, hi1⟩).1) →
      calculate_tax y [((0, 1/10) : ℝ × ℝ), ((50, 1/5) : ℝ × ℝ)] -
        calculate_tax x [((0, 1/10) : ℝ × ℝ), ((50, 1/5) : ℝ × ℝ)] =
        (([((0, 1/10) : ℝ × ℝ), ((50, 1/5) : ℝ × ℝ)]).get ⟨i, hi⟩).2 * (y - x)) :=
  calculate_tax_shape [((0, 1/10) : ℝ × ℝ), ((50, 1/5) : ℝ × ℝ)]
    (by norm_num [List.pairwise_cons]) (by simp)
    (by
      intro p hp
      simp only [List.mem_cons, List.mem_singleton] at hp
      rcases hp with h | h | h
      · rw [h]; norm_num
      · rw [h]; norm_num
      · exact absurd h (List.not_mem_nil p))

end Fire
